import Mathlib

/-!
Verification of `archinstall/lib/pacman.py`, the exclusive command runner
around the pacman database lock.

The source function is:

```
def run_pacman(args, default_cmd='pacman'):
    pacman_db_lock = pathlib.Path('/var/lib/pacman/db.lck')
    if pacman_db_lock.exists():
        warn('Pacman is already running, ...')
    started = time.time()
    while pacman_db_lock.exists():
        time.sleep(0.25)
        if time.time() - started > (60 * 10):
            error('Pre-existing pacman lock never exited. ...')
            exit(1)
    return SysCommand(f'{default_cmd} {args}')
```

The lock file is owned by an external process, so its state may change
between any two existence checks.  We embed this by an oracle
`env : Nat -> Bool` giving the result of the successive existence checks:
`env 0` is the initial `if` check, and `env j` for `j >= 1` is the `j`-th
evaluation of the `while` condition.  Time advances only through the
`time.sleep(0.25)` calls, each worth `pollIntervalMs = 250` milliseconds;
after the `n`-th sleep the elapsed time since `started` is
`n * pollIntervalMs` milliseconds, and the timeout test
`time.time() - started > 600` becomes `n * pollIntervalMs > timeoutMs`.

The run is recorded as a list of observable events (existence checks with
their results, warning and error emissions, sleeps) together with an
outcome: either a `SysCommand` handle is returned to the caller, or the
process exits with a status code.
-/

/-- The handle returned by `run_pacman`: in the repository `SysCommand`
(defined in `lib/general.py`) is constructed from the single invocation
string `f'{default_cmd} {args}'`. -/
structure SysCommand where
  cmd : String
deriving DecidableEq, Repr

/-- Modelled from the spec: `SysCommand` itself lives in `lib/general.py`,
outside the excerpt; the spec describes the handle as pairing a command
name with an argument string, recovered here from the raw invocation
string as the first whitespace-separated word and the remainder. -/
def SysCommand.name (c : SysCommand) : String :=
  String.mk (c.cmd.data.takeWhile (fun ch => ch ≠ ' '))

/-- Modelled from the spec: the argument-string component of the handle,
the part of the raw invocation string after the command name. -/
def SysCommand.argStr (c : SysCommand) : String :=
  String.mk ((c.cmd.data.dropWhile (fun ch => ch ≠ ' ')).drop 1)

/-- Observable events of one `run_pacman` call.  `check b` is an
existence test of the lock file returning `b`; `warn` and `errorMsg` are
the two leveled log emissions; `sleep` is one `time.sleep(0.25)`;
`fsWrite` is any filesystem mutation (creation, deletion or write of a
path) - the embedding emits it nowhere because the source performs none,
which is exactly the frame property to be proved. -/
inductive Event where
  | check (res : Bool)
  | warn
  | sleep
  | errorMsg
  | fsWrite
deriving DecidableEq, Repr

/-- Outcome of a call: a handle returned to the caller, or process
termination with an exit status (`exit(1)` in the source). -/
inductive Outcome where
  | handle (c : SysCommand)
  | exited (code : Nat)
deriving DecidableEq, Repr

/-- Duration of `time.sleep(0.25)` in milliseconds. -/
def pollIntervalMs : Nat := 250

/-- The timeout ceiling `60 * 10` seconds, in milliseconds. -/
def timeoutMs : Nat := 60 * 10 * 1000

/-- Number of whole poll intervals fitting in the ceiling (2400); after
`maxSleeps + 1` sleeps the elapsed time first exceeds the ceiling. -/
def maxSleeps : Nat := timeoutMs / pollIntervalMs

/-- Embedding of the `while pacman_db_lock.exists():` loop.  `sleeps` counts the
sleeps performed so far (so the next evaluation of the condition is check
number `sleeps + 1`).  Each iteration sleeps once, then tests
`time.time() - started > 600`, i.e. whether the elapsed
`(sleeps + 1) * pollIntervalMs` milliseconds exceed `timeoutMs`; on
timeout it emits the error message and exits with status 1. -/
def runLoop (env : Nat → Bool) (cmd : String) (sleeps : Nat) :
    List Event × Outcome :=
  if h : env (sleeps + 1) = true then
    if (sleeps + 1) * pollIntervalMs > timeoutMs then
      ([Event.check true, Event.sleep, Event.errorMsg], Outcome.exited 1)
    else
      let rest := runLoop env cmd (sleeps + 1)
      (Event.check true :: Event.sleep :: rest.1, rest.2)
  else
    ([Event.check false], Outcome.handle ⟨cmd⟩)
termination_by maxSleeps + 1 - sleeps
decreasing_by
  simp only [not_lt] at *
  simp only [pollIntervalMs, timeoutMs, maxSleeps] at *
  omega

/-- Embedding of `run_pacman(args, default_cmd)`: initial existence check with a
warning if the lock is present, then the wait loop, then (when the loop
falls through) the `SysCommand(f'{default_cmd} {args}')` handle. -/
def run_pacman (args : String) (default_cmd : String)
    (env : Nat → Bool) : List Event × Outcome :=
  let pre : List Event :=
    if env 0 = true then [Event.check true, Event.warn]
    else [Event.check false]
  let body := runLoop env (default_cmd ++ " " ++ args) 0
  (pre ++ body.1, body.2)

/-! ### Step lemmas for the wait loop -/

lemma runLoop_clear {env : Nat → Bool} {cmd : String} {sleeps : Nat}
    (h : env (sleeps + 1) = false) :
    runLoop env cmd sleeps = ([Event.check false], Outcome.handle ⟨cmd⟩) := by
  rw [runLoop]
  simp [h]

lemma runLoop_timeout {env : Nat → Bool} {cmd : String} {sleeps : Nat}
    (h : env (sleeps + 1) = true) (ht : maxSleeps ≤ sleeps) :
    runLoop env cmd sleeps =
      ([Event.check true, Event.sleep, Event.errorMsg], Outcome.exited 1) := by
  rw [runLoop]
  have hgt : (sleeps + 1) * pollIntervalMs > timeoutMs := by
    simp only [maxSleeps, timeoutMs, pollIntervalMs] at *
    omega
  simp [h, hgt]

lemma runLoop_locked {env : Nat → Bool} {cmd : String} {sleeps : Nat}
    (h : env (sleeps + 1) = true) (ht : sleeps < maxSleeps) :
    runLoop env cmd sleeps =
      (Event.check true :: Event.sleep :: (runLoop env cmd (sleeps + 1)).1,
        (runLoop env cmd (sleeps + 1)).2) := by
  rw [runLoop]
  have hle : ¬ (sleeps + 1) * pollIntervalMs > timeoutMs := by
    simp only [maxSleeps, timeoutMs, pollIntervalMs] at *
    omega
  simp [h, hle]

example : maxSleeps = 2400 := by decide

example :
    run_pacman "update" "pacman" (fun _ => false) =
      ([Event.check false, Event.check false],
        Outcome.handle ⟨"pacman update"⟩) := by
  have h := @runLoop_clear (fun _ => false) "pacman update" 0 rfl
  simp [run_pacman, h]

/-! ### Characterizations of the wait loop -/

/-- The loop trace always starts with the existence check that the
`while` condition performs. -/
lemma runLoop_head (env : Nat → Bool) (cmd : String) (sleeps : Nat) :
    ∃ t, (runLoop env cmd sleeps).1 = Event.check (env (sleeps + 1)) :: t := by
  by_cases h : env (sleeps + 1) = true
  · by_cases ht : sleeps < maxSleeps
    · rw [runLoop_locked h ht, h]
      exact ⟨_, rfl⟩
    · rw [runLoop_timeout h (by omega), h]
      exact ⟨_, rfl⟩
  · have h' : env (sleeps + 1) = false := by
      cases hb : env (sleeps + 1) <;> simp_all
    rw [runLoop_clear h', h']
    exact ⟨_, rfl⟩

/-- Dichotomy: the loop either exits the process with status 1 having
emitted the error message exactly once, or returns the handle built from
`cmd` having emitted no error message. -/
lemma runLoop_cases (env : Nat → Bool) (cmd : String) :
    ∀ (n sleeps : Nat), maxSleeps + 1 - sleeps ≤ n →
      ((runLoop env cmd sleeps).2 = Outcome.exited 1 ∧
        (runLoop env cmd sleeps).1.count Event.errorMsg = 1) ∨
      ((runLoop env cmd sleeps).2 = Outcome.handle ⟨cmd⟩ ∧
        (runLoop env cmd sleeps).1.count Event.errorMsg = 0) := by
  intro n
  induction n with
  | zero =>
    intro sleeps hs
    have hms : maxSleeps ≤ sleeps := by omega
    by_cases h : env (sleeps + 1) = true
    · rw [runLoop_timeout h hms]
      left
      refine ⟨rfl, ?_⟩
      simp
    · have h' : env (sleeps + 1) = false := by
        cases hb : env (sleeps + 1) <;> simp_all
      rw [runLoop_clear h']
      right
      refine ⟨rfl, ?_⟩
      simp
  | succ k ih =>
    intro sleeps hs
    by_cases h : env (sleeps + 1) = true
    · by_cases ht : sleeps < maxSleeps
      · rw [runLoop_locked h ht]
        rcases ih (sleeps + 1) (by omega) with ⟨h2, hc⟩ | ⟨h2, hc⟩
        · left
          refine ⟨h2, ?_⟩
          simp [List.count_cons, hc]
        · right
          refine ⟨h2, ?_⟩
          simp [List.count_cons, hc]
      · rw [runLoop_timeout h (by omega)]
        left
        refine ⟨rfl, ?_⟩
        decide
    · have h' : env (sleeps + 1) = false := by
        cases hb : env (sleeps + 1) <;> simp_all
      rw [runLoop_clear h']
      right
      refine ⟨rfl, ?_⟩
      simp

/-- The loop emits no warning and performs no filesystem mutation. -/
lemma runLoop_counts (env : Nat → Bool) (cmd : String) :
    ∀ (n sleeps : Nat), maxSleeps + 1 - sleeps ≤ n →
      (runLoop env cmd sleeps).1.count Event.warn = 0 ∧
      (runLoop env cmd sleeps).1.count Event.fsWrite = 0 := by
  intro n
  induction n with
  | zero =>
    intro sleeps hs
    by_cases h : env (sleeps + 1) = true
    · rw [runLoop_timeout h (by omega)]
      refine ⟨by simp, by simp⟩
    · have h' : env (sleeps + 1) = false := by
        cases hb : env (sleeps + 1) <;> simp_all
      rw [runLoop_clear h']
      refine ⟨by simp, by simp⟩
  | succ k ih =>
    intro sleeps hs
    by_cases h : env (sleeps + 1) = true
    · by_cases ht : sleeps < maxSleeps
      · rw [runLoop_locked h ht]
        obtain ⟨hw, hf⟩ := ih (sleeps + 1) (by omega)
        refine ⟨?_, ?_⟩ <;> simp [List.count_cons, hw, hf]
      · rw [runLoop_timeout h (by omega)]
        refine ⟨by simp, by simp⟩
    · have h' : env (sleeps + 1) = false := by
        cases hb : env (sleeps + 1) <;> simp_all
      rw [runLoop_clear h']
      refine ⟨by simp, by simp⟩

/-- Lock that never clears: from any point `sleeps = maxSleeps - n` the
loop exits the process with status 1 after exactly `n + 1` further
sleeps, emitting the error message exactly once. -/
lemma runLoop_all_locked (env : Nat → Bool) (cmd : String)
    (hall : ∀ j, 1 ≤ j → env j = true) :
    ∀ (n sleeps : Nat), maxSleeps = sleeps + n →
      (runLoop env cmd sleeps).2 = Outcome.exited 1 ∧
      (runLoop env cmd sleeps).1.count Event.sleep = n + 1 ∧
      (runLoop env cmd sleeps).1.count Event.errorMsg = 1 := by
  intro n
  induction n with
  | zero =>
    intro sleeps hs
    rw [runLoop_timeout (hall _ (by omega)) (by omega)]
    refine ⟨rfl, by simp, by simp⟩
  | succ k ih =>
    intro sleeps hs
    rw [runLoop_locked (hall _ (by omega)) (by omega)]
    obtain ⟨h2, hsl, herr⟩ := ih (sleeps + 1) (by omega)
    refine ⟨h2, ?_, ?_⟩ <;> simp [List.count_cons, hsl, herr]

/-- Whenever the loop returns a handle, some existence check observed the
lock absent, and every earlier loop check had observed it present. -/
lemma runLoop_handle_found (env : Nat → Bool) (cmd : String) :
    ∀ (n sleeps : Nat), maxSleeps + 1 - sleeps ≤ n →
      ∀ c, (runLoop env cmd sleeps).2 = Outcome.handle c →
        ∃ j, sleeps + 1 ≤ j ∧ env j = false ∧
          ∀ k, sleeps + 1 ≤ k → k < j → env k = true := by
  intro n
  induction n with
  | zero =>
    intro sleeps hs c hc
    by_cases h : env (sleeps + 1) = true
    · rw [runLoop_timeout h (by omega)] at hc
      exact absurd hc (by simp)
    · have h' : env (sleeps + 1) = false := by
        cases hb : env (sleeps + 1) <;> simp_all
      exact ⟨sleeps + 1, le_refl _, h', fun k hk1 hk2 => by omega⟩
  | succ m ih =>
    intro sleeps hs c hc
    by_cases h : env (sleeps + 1) = true
    · by_cases ht : sleeps < maxSleeps
      · rw [runLoop_locked h ht] at hc
        obtain ⟨j, hj1, hj2, hj3⟩ := ih (sleeps + 1) (by omega) c hc
        refine ⟨j, by omega, hj2, fun k hk1 hk2 => ?_⟩
        rcases Nat.eq_or_lt_of_le hk1 with heq | hlt
        · rw [heq] at h; exact h
        · exact hj3 k (by omega) hk2
      · rw [runLoop_timeout h (by omega)] at hc
        exact absurd hc (by simp)
    · have h' : env (sleeps + 1) = false := by
        cases hb : env (sleeps + 1) <;> simp_all
      exact ⟨sleeps + 1, le_refl _, h', fun k hk1 hk2 => by omega⟩

/-- The wait/timeout behaviour of the loop does not depend on the command
string: events coincide and outcomes agree up to the handle's contents. -/
lemma runLoop_cmd_indep (env : Nat → Bool) (c₁ c₂ : String) :
    ∀ (n sleeps : Nat), maxSleeps + 1 - sleeps ≤ n →
      (runLoop env c₁ sleeps).1 = (runLoop env c₂ sleeps).1 ∧
      ((runLoop env c₁ sleeps).2 = Outcome.exited 1 ↔
        (runLoop env c₂ sleeps).2 = Outcome.exited 1) := by
  intro n
  induction n with
  | zero =>
    intro sleeps hs
    by_cases h : env (sleeps + 1) = true
    · rw [runLoop_timeout h (by omega), runLoop_timeout h (by omega)]
      exact ⟨rfl, Iff.rfl⟩
    · have h' : env (sleeps + 1) = false := by
        cases hb : env (sleeps + 1) <;> simp_all
      rw [runLoop_clear h', runLoop_clear h']
      exact ⟨rfl, by simp⟩
  | succ m ih =>
    intro sleeps hs
    by_cases h : env (sleeps + 1) = true
    · by_cases ht : sleeps < maxSleeps
      · rw [runLoop_locked h ht, runLoop_locked h ht]
        obtain ⟨he, ho⟩ := ih (sleeps + 1) (by omega)
        exact ⟨by rw [he], ho⟩
      · rw [runLoop_timeout h (by omega), runLoop_timeout h (by omega)]
        exact ⟨rfl, Iff.rfl⟩
    · have h' : env (sleeps + 1) = false := by
        cases hb : env (sleeps + 1) <;> simp_all
      rw [runLoop_clear h', runLoop_clear h']
      exact ⟨rfl, by simp⟩

/-! ### Gaps between successive existence checks -/

/-- Auxiliary for `betweenChecks`: accumulates the events since the last
`check` (in reverse) and closes a gap at each further `check`; events
after the final check belong to no gap. -/
def collectGaps (cur : List Event) : List Event → List (List Event)
  | [] => []
  | Event.check _ :: rest => cur.reverse :: collectGaps [] rest
  | e :: rest => collectGaps (e :: cur) rest

/-- The list of event segments lying strictly between each pair of
consecutive `check` events of a trace, in order. -/
def betweenChecks : List Event → List (List Event)
  | [] => []
  | Event.check _ :: rest => collectGaps [] rest
  | _ :: rest => betweenChecks rest

example :
    betweenChecks
      [Event.check true, Event.warn, Event.check true, Event.sleep,
        Event.check false] = [[Event.warn], [Event.sleep]] := by
  decide

/-- Every gap between two successive loop re-checks is exactly one
sleep: the loop never re-checks without sleeping and never sleeps twice
between checks. -/
lemma runLoop_gaps (env : Nat → Bool) (cmd : String) :
    ∀ (n sleeps : Nat), maxSleeps + 1 - sleeps ≤ n →
      ∀ g ∈ betweenChecks (runLoop env cmd sleeps).1, g = [Event.sleep] := by
  intro n
  induction n with
  | zero =>
    intro sleeps hs g hg
    by_cases h : env (sleeps + 1) = true
    · rw [runLoop_timeout h (by omega)] at hg
      simp [betweenChecks, collectGaps] at hg
    · have h' : env (sleeps + 1) = false := by
        cases hb : env (sleeps + 1) <;> simp_all
      rw [runLoop_clear h'] at hg
      simp [betweenChecks, collectGaps] at hg
  | succ m ih =>
    intro sleeps hs g hg
    by_cases h : env (sleeps + 1) = true
    · by_cases ht : sleeps < maxSleeps
      · rw [runLoop_locked h ht] at hg
        obtain ⟨t, hhead⟩ := runLoop_head env cmd (sleeps + 1)
        rw [hhead] at hg
        simp only [betweenChecks, collectGaps, List.reverse_nil,
          List.reverse_cons, List.nil_append, List.mem_cons] at hg
        rcases hg with hg | hg
        · exact hg
        · have hmem : g ∈ betweenChecks (runLoop env cmd (sleeps + 1)).1 := by
            rw [hhead]
            simpa [betweenChecks] using hg
          exact ih (sleeps + 1) (by omega) g hmem
      · rw [runLoop_timeout h (by omega)] at hg
        simp [betweenChecks, collectGaps] at hg
    · have h' : env (sleeps + 1) = false := by
        cases hb : env (sleeps + 1) <;> simp_all
      rw [runLoop_clear h'] at hg
      simp [betweenChecks, collectGaps] at hg

/-! ### Run-level helpers -/

/-- Unfolding of `run_pacman` into its warning prefix and its wait loop. -/
lemma run_pacman_def (args default_cmd : String) (env : Nat → Bool) :
    run_pacman args default_cmd env =
      ((if env 0 = true then [Event.check true, Event.warn]
          else [Event.check false]) ++
        (runLoop env (default_cmd ++ " " ++ args) 0).1,
        (runLoop env (default_cmd ++ " " ++ args) 0).2) := rfl

/-- Counting one event kind in the full trace splits into the prefix part
and the loop part. -/
lemma run_pacman_count (args default_cmd : String) (env : Nat → Bool)
    (e : Event) :
    (run_pacman args default_cmd env).1.count e =
      (if env 0 = true then [Event.check true, Event.warn]
          else [Event.check false]).count e +
        (runLoop env (default_cmd ++ " " ++ args) 0).1.count e := by
  rw [run_pacman_def]
  exact List.count_append e _ _

/-- First projection of `run_pacman`: the event trace. -/
lemma run_pacman_fst (args default_cmd : String) (env : Nat → Bool) :
    (run_pacman args default_cmd env).1 =
      (if env 0 = true then [Event.check true, Event.warn]
          else [Event.check false]) ++
        (runLoop env (default_cmd ++ " " ++ args) 0).1 := rfl

/-- Second projection of `run_pacman`: the outcome is the loop's. -/
lemma run_pacman_snd (args default_cmd : String) (env : Nat → Bool) :
    (run_pacman args default_cmd env).2 =
      (runLoop env (default_cmd ++ " " ++ args) 0).2 := rfl

/-! ### The claims -/

/-- C1: the function `run_pacman` never returns an invocation handle while the lock
file is present — on every trace of lock observations, either the process
exits with status 1, or the handle is produced and some existence check
observed the lock absent while every earlier wait-loop check had observed
it present. -/
theorem C1_no_invocation_while_locked (env : Nat → Bool)
    (args default_cmd : String) :
    (run_pacman args default_cmd env).2 = Outcome.exited 1 ∨
    ∃ c j, (run_pacman args default_cmd env).2 = Outcome.handle c ∧
      1 ≤ j ∧ env j = false ∧
      ∀ k, 1 ≤ k → k < j → env k = true := by
  rw [run_pacman_snd]
  rcases runLoop_cases env (default_cmd ++ " " ++ args) (maxSleeps + 1) 0
      (by omega) with ⟨h2, _⟩ | ⟨h2, _⟩
  · exact Or.inl h2
  · obtain ⟨j, hj1, hj2, hj3⟩ :=
      runLoop_handle_found env (default_cmd ++ " " ++ args) (maxSleeps + 1) 0
        (by omega) _ h2
    exact Or.inr ⟨_, j, h2, hj1, hj2, hj3⟩

/-- C2: bounded wait — on a lock that never clears, `run_pacman` exits
the process with status 1 after exactly `maxSleeps + 1 = 2401` sleeps,
whose simulated duration exceeds the 600-second ceiling by at most one
250 ms poll interval (and is never below the ceiling). -/
theorem C2_bounded_wait (env : Nat → Bool) (args default_cmd : String)
    (hall : ∀ j, env j = true) :
    (run_pacman args default_cmd env).2 = Outcome.exited 1 ∧
    (run_pacman args default_cmd env).1.count Event.sleep = maxSleeps + 1 ∧
    timeoutMs < (maxSleeps + 1) * pollIntervalMs ∧
    (maxSleeps + 1) * pollIntervalMs ≤ timeoutMs + pollIntervalMs := by
  obtain ⟨h2, hsl, _⟩ :=
    runLoop_all_locked env (default_cmd ++ " " ++ args)
      (fun j _ => hall j) maxSleeps 0 (by omega)
  refine ⟨by rw [run_pacman_snd]; exact h2, ?_, by decide, by decide⟩
  rw [run_pacman_count, hall 0, hsl]
  simp

/-- Witness for C2 at the constantly locked environment. -/
theorem C2_bounded_wait_witness :
    (∀ j, (fun _ : Nat => true) j = true) ∧
    ((run_pacman "update" "pacman" (fun _ => true)).2 = Outcome.exited 1 ∧
      (run_pacman "update" "pacman" (fun _ => true)).1.count Event.sleep =
        maxSleeps + 1 ∧
      timeoutMs < (maxSleeps + 1) * pollIntervalMs ∧
      (maxSleeps + 1) * pollIntervalMs ≤ timeoutMs + pollIntervalMs) :=
  ⟨fun _ => rfl,
    C2_bounded_wait (fun _ => true) "update" "pacman" (fun _ => rfl)⟩

/-- C3: the timeout is a hard terminal condition — every run either exits
the process with status 1 having emitted the error message exactly once
(and returns no handle), or returns a handle having emitted no error
message; a timeout is never surfaced to the caller as a return value. -/
theorem C3_timeout_fatal (env : Nat → Bool) (args default_cmd : String) :
    ((run_pacman args default_cmd env).2 = Outcome.exited 1 ∧ (1 : Nat) ≠ 0 ∧
      (run_pacman args default_cmd env).1.count Event.errorMsg = 1 ∧
      ∀ c, (run_pacman args default_cmd env).2 ≠ Outcome.handle c) ∨
    (∃ c, (run_pacman args default_cmd env).2 = Outcome.handle c ∧
      (run_pacman args default_cmd env).1.count Event.errorMsg = 0) := by
  rcases runLoop_cases env (default_cmd ++ " " ++ args) (maxSleeps + 1) 0
      (by omega) with ⟨h2, hc⟩ | ⟨h2, hc⟩
  · left
    refine ⟨by rw [run_pacman_snd]; exact h2, by omega, ?_, ?_⟩
    · rw [run_pacman_count, hc]
      by_cases h0 : env 0 = true <;> simp [h0]
    · intro c hcon
      rw [run_pacman_snd] at hcon
      rw [h2] at hcon
      exact absurd hcon (by simp)
  · right
    refine ⟨⟨default_cmd ++ " " ++ args⟩,
      by rw [run_pacman_snd]; exact h2, ?_⟩
    rw [run_pacman_count, hc]
    by_cases h0 : env 0 = true <;> simp [h0]

/-- Environment in which the lock is absent at the initial check but
present at every wait-loop check: it appears between the two checks and
never clears. -/
def envLockedFromFirstPoll : Nat → Bool := fun j => decide (1 ≤ j)

/-- Counterexample to C4 as stated: with the lock absent at the first
existence check but appearing before the loop's first re-check,
`run_pacman` does not return a handle at all — it sleeps 2401 times and
exits the process with status 1. -/
theorem C4_immediate_path_counterexample :
    envLockedFromFirstPoll 0 = false ∧
    (run_pacman "update" "pacman" envLockedFromFirstPoll).2 =
      Outcome.exited 1 ∧
    (run_pacman "update" "pacman" envLockedFromFirstPoll).1.count
      Event.sleep = maxSleeps + 1 := by
  have hall : ∀ j, 1 ≤ j → envLockedFromFirstPoll j = true := by
    intro j hj
    simpa [envLockedFromFirstPoll] using hj
  obtain ⟨h2, hsl, _⟩ :=
    runLoop_all_locked envLockedFromFirstPoll ("pacman" ++ " " ++ "update")
      hall maxSleeps 0 (by omega)
  refine ⟨rfl, by rw [run_pacman_snd]; exact h2, ?_⟩
  rw [run_pacman_count]
  have h0 : envLockedFromFirstPoll 0 = false := rfl
  rw [h0, hsl]
  simp

/-- C4 (amended): if the lock is absent at the initial existence check
and still absent at the wait loop's first check, `run_pacman` returns the
invocation handle with no sleep and no warning emitted. -/
theorem C4_immediate_path (env : Nat → Bool) (args default_cmd : String)
    (h0 : env 0 = false) (h1 : env 1 = false) :
    (run_pacman args default_cmd env).2 =
      Outcome.handle ⟨default_cmd ++ " " ++ args⟩ ∧
    (run_pacman args default_cmd env).1.count Event.sleep = 0 ∧
    (run_pacman args default_cmd env).1.count Event.warn = 0 := by
  have hl := @runLoop_clear env (default_cmd ++ " " ++ args) 0 h1
  refine ⟨?_, ?_, ?_⟩
  · rw [run_pacman_snd, hl]
  · rw [run_pacman_count, h0, hl]
    simp
  · rw [run_pacman_count, h0, hl]
    simp

/-- Witness for the amended C4 at the constantly free environment. -/
theorem C4_immediate_path_witness :
    ((fun _ : Nat => false) 0 = false ∧ (fun _ : Nat => false) 1 = false) ∧
    ((run_pacman "update" "pacman" (fun _ => false)).2 =
        Outcome.handle ⟨"pacman" ++ " " ++ "update"⟩ ∧
      (run_pacman "update" "pacman" (fun _ => false)).1.count
        Event.sleep = 0 ∧
      (run_pacman "update" "pacman" (fun _ => false)).1.count
        Event.warn = 0) :=
  ⟨⟨rfl, rfl⟩, C4_immediate_path (fun _ => false) "update" "pacman" rfl rfl⟩

/-- C5: every handle that `run_pacman` returns carries exactly the invocation
string `default_cmd ++ " " ++ args`; in particular
`run_pacman('update', 'pacman')` on a free lock yields the handle whose
command name is `pacman` and whose argument string is `update`. -/
theorem C5_handle_contents (env : Nat → Bool) (args default_cmd : String)
    (c : SysCommand)
    (hc : (run_pacman args default_cmd env).2 = Outcome.handle c) :
    c.cmd = default_cmd ++ " " ++ args ∧
    (run_pacman "update" "pacman" (fun _ => false)).2 =
      Outcome.handle ⟨"pacman update"⟩ ∧
    SysCommand.name ⟨"pacman update"⟩ = "pacman" ∧
    SysCommand.argStr ⟨"pacman update"⟩ = "update" := by
  have hfree : (run_pacman "update" "pacman" (fun _ => false)).2 =
      Outcome.handle ⟨"pacman update"⟩ := by
    rw [run_pacman_snd,
      @runLoop_clear (fun _ => false) ("pacman" ++ " " ++ "update") 0 rfl]
    rfl
  refine ⟨?_, hfree, by decide, by decide⟩
  rcases runLoop_cases env (default_cmd ++ " " ++ args) (maxSleeps + 1) 0
      (by omega) with ⟨h2, _⟩ | ⟨h2, _⟩
  · rw [run_pacman_snd] at hc
    rw [h2] at hc
    exact absurd hc (by simp)
  · rw [run_pacman_snd] at hc
    rw [h2] at hc
    have hcc := Outcome.handle.inj hc
    rw [← hcc]

/-- Witness for C5 at the constantly free environment. -/
theorem C5_handle_contents_witness :
    (run_pacman "update" "pacman" (fun _ => false)).2 =
      Outcome.handle ⟨"pacman update"⟩ ∧
    (SysCommand.mk "pacman update").cmd = "pacman" ++ " " ++ "update" := by
  have hfree : (run_pacman "update" "pacman" (fun _ => false)).2 =
      Outcome.handle ⟨"pacman update"⟩ := by
    rw [run_pacman_snd,
      @runLoop_clear (fun _ => false) ("pacman" ++ " " ++ "update") 0 rfl]
    rfl
  exact ⟨hfree,
    (C5_handle_contents (fun _ => false) "update" "pacman" _ hfree).1⟩

/-- C6: the contention warning is emitted exactly when the initial check
observes the lock (hence at most once per call), and the wait loop itself
never emits a warning. -/
theorem C6_warning_once (env : Nat → Bool) (args default_cmd : String) :
    (run_pacman args default_cmd env).1.count Event.warn =
      (if env 0 = true then 1 else 0) ∧
    (runLoop env (default_cmd ++ " " ++ args) 0).1.count Event.warn = 0 := by
  obtain ⟨hw, _⟩ :=
    runLoop_counts env (default_cmd ++ " " ++ args) (maxSleeps + 1) 0
      (by omega)
  refine ⟨?_, hw⟩
  rw [run_pacman_count, hw]
  by_cases h0 : env 0 = true <;> simp [h0]

/-- The gaps after the first one in the full trace are exactly the gaps
between the wait loop's successive checks. -/
lemma betweenChecks_run_pacman (args default_cmd : String)
    (env : Nat → Bool) :
    (betweenChecks (run_pacman args default_cmd env).1).tail =
      betweenChecks (runLoop env (default_cmd ++ " " ++ args) 0).1 := by
  obtain ⟨t, ht⟩ := runLoop_head env (default_cmd ++ " " ++ args) 0
  rw [run_pacman_fst, ht]
  by_cases h0 : env 0 = true
  · rw [h0]
    simp [betweenChecks, collectGaps]
  · have h0' : env 0 = false := by
      cases hb : env 0 <;> simp_all
    rw [h0']
    simp [betweenChecks, collectGaps]

/-- C7: during contention every pair of successive lock re-checks of the
wait loop is separated by exactly one sleep — each gap between
consecutive checks after the loop is entered equals `[Event.sleep]`. -/
theorem C7_poll_interval (env : Nat → Bool) (args default_cmd : String) :
    ∀ g ∈ (betweenChecks (run_pacman args default_cmd env).1).tail,
      g = [Event.sleep] := by
  rw [betweenChecks_run_pacman]
  exact runLoop_gaps env (default_cmd ++ " " ++ args) (maxSleeps + 1) 0
    (by omega)

/-- Environment in which the lock is present only at the wait loop's
first check and clear afterwards. -/
def envLockAtFirstPollOnly : Nat → Bool := fun j => decide (j = 1)

/-- Witness for C7 on a run with two loop checks separated by a sleep. -/
theorem C7_poll_interval_witness :
    [Event.sleep] ∈
      (betweenChecks
        (run_pacman "update" "pacman" envLockAtFirstPollOnly).1).tail ∧
    [Event.sleep] = [Event.sleep] := by
  have hl1 := @runLoop_locked envLockAtFirstPollOnly
    ("pacman" ++ " " ++ "update") 0 rfl (by decide)
  have hl2 := @runLoop_clear envLockAtFirstPollOnly
    ("pacman" ++ " " ++ "update") 1 rfl
  have hmem : [Event.sleep] ∈
      (betweenChecks
        (run_pacman "update" "pacman" envLockAtFirstPollOnly).1).tail := by
    rw [run_pacman_fst, hl1, hl2]
    simp [betweenChecks, collectGaps, envLockAtFirstPollOnly]
  exact ⟨hmem,
    C7_poll_interval envLockAtFirstPollOnly "update" "pacman" _ hmem⟩

/-- C8: the function `run_pacman` never mutates the filesystem — no execution trace
contains a filesystem-write event, on the waiting, success and timeout
paths alike. -/
theorem C8_read_only_observation (env : Nat → Bool)
    (args default_cmd : String) :
    (run_pacman args default_cmd env).1.count Event.fsWrite = 0 := by
  obtain ⟨_, hf⟩ :=
    runLoop_counts env (default_cmd ++ " " ++ args) (maxSleeps + 1) 0
      (by omega)
  rw [run_pacman_count, hf]
  by_cases h0 : env 0 = true <;> simp [h0]

/-- C9: the lock-check, wait, warning and timeout behaviour of
`run_pacman` is independent of `default_cmd` — on the same lock trace two
calls differing only in `default_cmd` produce identical event traces and
the same outcome kind, differing only in the returned command string. -/
theorem C9_command_independent_gating (env : Nat → Bool)
    (args ca cb : String) :
    (run_pacman args ca env).1 = (run_pacman args cb env).1 ∧
    (((run_pacman args ca env).2 = Outcome.exited 1 ∧
        (run_pacman args cb env).2 = Outcome.exited 1) ∨
      ((run_pacman args ca env).2 = Outcome.handle ⟨ca ++ " " ++ args⟩ ∧
        (run_pacman args cb env).2 = Outcome.handle ⟨cb ++ " " ++ args⟩)) := by
  obtain ⟨hev, hiff⟩ :=
    runLoop_cmd_indep env (ca ++ " " ++ args) (cb ++ " " ++ args)
      (maxSleeps + 1) 0 (by omega)
  constructor
  · rw [run_pacman_fst, run_pacman_fst, hev]
  · rcases runLoop_cases env (ca ++ " " ++ args) (maxSleeps + 1) 0
        (by omega) with ⟨ha, _⟩ | ⟨ha, _⟩
    · left
      exact ⟨by rw [run_pacman_snd]; exact ha,
        by rw [run_pacman_snd]; exact hiff.mp ha⟩
    · right
      rcases runLoop_cases env (cb ++ " " ++ args) (maxSleeps + 1) 0
          (by omega) with ⟨hb, _⟩ | ⟨hb, _⟩
      · exact absurd (hiff.mpr hb) (by rw [ha]; simp)
      · exact ⟨by rw [run_pacman_snd]; exact ha,
          by rw [run_pacman_snd]; exact hb⟩

/-- C10: the contention warning depends only on the very first existence
check — if the lock is absent at the initial check but present at the
first wait-loop check, the runner enters the wait loop (at least one
sleep) without emitting any warning, and if the lock then never clears it
even times out and exits, still without a warning. -/
theorem C10_warning_only_at_first_check (env : Nat → Bool)
    (args default_cmd : String)
    (h0 : env 0 = false) (h1 : env 1 = true) :
    (run_pacman args default_cmd env).1.count Event.warn = 0 ∧
    1 ≤ (run_pacman args default_cmd env).1.count Event.sleep ∧
    ((∀ j, 1 ≤ j → env j = true) →
      (run_pacman args default_cmd env).2 = Outcome.exited 1) := by
  obtain ⟨hw, _⟩ :=
    runLoop_counts env (default_cmd ++ " " ++ args) (maxSleeps + 1) 0
      (by omega)
  refine ⟨?_, ?_, ?_⟩
  · rw [run_pacman_count, h0, hw]
    simp
  · rw [run_pacman_count, h0]
    have hl := @runLoop_locked env (default_cmd ++ " " ++ args) 0 h1
      (by decide)
    rw [hl]
    simp [List.count_cons]
  · intro hall
    obtain ⟨h2, _, _⟩ :=
      runLoop_all_locked env (default_cmd ++ " " ++ args) hall maxSleeps 0
        (by omega)
    rw [run_pacman_snd]
    exact h2

/-- Witness for C10 at the environment where the lock appears between the
initial check and the first poll and never clears. -/
theorem C10_warning_only_at_first_check_witness :
    (envLockedFromFirstPoll 0 = false ∧ envLockedFromFirstPoll 1 = true) ∧
    ((run_pacman "update" "pacman" envLockedFromFirstPoll).1.count
        Event.warn = 0 ∧
      1 ≤ (run_pacman "update" "pacman" envLockedFromFirstPoll).1.count
        Event.sleep ∧
      ((∀ j, 1 ≤ j → envLockedFromFirstPoll j = true) →
        (run_pacman "update" "pacman" envLockedFromFirstPoll).2 =
          Outcome.exited 1)) :=
  ⟨⟨rfl, rfl⟩,
    C10_warning_only_at_first_check envLockedFromFirstPoll "update" "pacman"
      rfl rfl⟩
